import Mathlib

/-!
Verification of the TCG card printer pipeline.

Shallow embedding of the repository's core components:

* `image_processor.py` — `ImageProcessor.process_image` / `_smart_resize_crop`:
  images are modelled by their geometry (width, height, colour mode); the
  floating-point aspect/scale arithmetic is idealised by exact rationals and
  Python `int()` truncation by `pyInt` (truncation toward zero).
* `folder_monitor.py` — `CardImageHandler` (the event deduplicator with its
  `processed_files` set) and `FolderMonitor.process_existing_files`.
* `print_controller.py` — `get_job_status` over a modelled CUPS job listing.
* `tcg_card_printer.py` — `_process_and_print`, `_monitor_print_job` (time
  discretised: one loop iteration costs one 2-second sleep) and
  `_process_print_queue` (a step-indexed sweep over the retry queue, with the
  per-item processing's queue appends supplied by an oracle `eff`).

External collaborators (PIL pixel operations, CUPS, the watchdog observer,
the filesystem) enter as oracle parameters recording the answers they give.
-/

namespace TCG

/-! ## PIL image geometry (image_processor.py) -/

/-- The colour modes handled by `process_image`: `RGB`, `RGBA`, `LA`,
palette (`P`) and greyscale (`L`). -/
inductive PILMode where
  | RGB | RGBA | LA | P | L
  deriving DecidableEq, Repr

/-- A PIL image, abstracted to its geometry and colour mode (the claims under
verification only concern dimensions and mode, never pixel content). -/
structure PILImage where
  width : Nat
  height : Nat
  mode : PILMode
  deriving DecidableEq, Repr

/-- `Image.new(mode, size, color)` — a fresh canvas. -/
def PILnew (m : PILMode) (w h : Nat) : PILImage := ⟨w, h, m⟩

/-- `img.convert(mode)` — same geometry, new mode. -/
def PILImage.convert (img : PILImage) (m : PILMode) : PILImage :=
  { img with mode := m }

/-- `base.paste(img, mask)` — pasting leaves the base image's geometry and
mode unchanged. -/
def PILImage.paste (base _img : PILImage) : PILImage := base

/-- `img.resize((w, h), LANCZOS)` — the result has exactly the requested
size and the source's mode. -/
def PILImage.resize (img : PILImage) (w h : Nat) : PILImage :=
  ⟨w, h, img.mode⟩

/-- `img.crop((l, t, r, b))` — PIL's crop returns an image of exactly
`(r - l) × (b - t)` pixels (clamped at zero), in the source's mode. -/
def PILImage.crop (img : PILImage) (l t r b : Int) : PILImage :=
  ⟨(r - l).toNat, (b - t).toNat, img.mode⟩

/-- Python `int()` on a rational: truncation toward zero. -/
def pyInt (q : ℚ) : Int :=
  if 0 ≤ q then ⌊q⌋ else -⌊-q⌋

/-- The mode-normalisation prologue of `ImageProcessor.process_image`:
`RGBA`/`LA`/`P` inputs are composited onto an opaque white RGB canvas of the
source's size; any other non-RGB input is converted to RGB. -/
def toRGB (img : PILImage) : PILImage :=
  if img.mode = .RGBA ∨ img.mode = .LA ∨ img.mode = .P then
    let rgb_img := PILnew .RGB img.width img.height
    let img := if img.mode = .P then img.convert .RGBA else img
    rgb_img.paste img
  else if img.mode ≠ .RGB then
    img.convert .RGB
  else
    img

/-- `ImageProcessor._smart_resize_crop`: near-matching aspect ratio is
stretched directly to the target; otherwise the image is scaled by
`max(target_width/w, target_height/h)` and centre-cropped. -/
def smart_resize_crop (target_width target_height : Nat) (img : PILImage) :
    PILImage :=
  let orig_aspect : ℚ := (img.width : ℚ) / (img.height : ℚ)
  let target_aspect : ℚ := (target_width : ℚ) / (target_height : ℚ)
  if |orig_aspect - target_aspect| < 1/10 then
    img.resize target_width target_height
  else
    let scale : ℚ := max ((target_width : ℚ) / (img.width : ℚ))
      ((target_height : ℚ) / (img.height : ℚ))
    let new_width : Nat := (pyInt ((img.width : ℚ) * scale)).toNat
    let new_height : Nat := (pyInt ((img.height : ℚ) * scale)).toNat
    let img := img.resize new_width new_height
    let left : Int := Int.fdiv ((new_width : Int) - target_width) 2
    let top : Int := Int.fdiv ((new_height : Int) - target_height) 2
    let right : Int := left + target_width
    let bottom : Int := top + target_height
    img.crop left top right bottom

/-- `ImageProcessor._optimize_for_print`: auto-contrast followed by a mild
sharpen — both preserve geometry and mode, so at this abstraction level the
image is unchanged. -/
def optimize_for_print (img : PILImage) : PILImage := img

/-- The image-transforming core of `ImageProcessor.process_image` (the
surrounding file I/O — open, save with DPI/quality — is external). -/
def process_image (target_width target_height : Nat) (optimize : Bool)
    (img : PILImage) : PILImage :=
  let img := toRGB img
  let processed := smart_resize_crop target_width target_height img
  if optimize then optimize_for_print processed else processed

end TCG

namespace TCG

theorem toRGB_eq (img : PILImage) :
    toRGB img = ⟨img.width, img.height, .RGB⟩ := by
  obtain ⟨w, h, m⟩ := img
  cases m <;> rfl

theorem fdiv_two_eq_ediv (d : Int) : Int.fdiv d 2 = d / 2 :=
  Int.fdiv_eq_ediv d (by norm_num)

theorem smart_resize_crop_geometry (tw th : Nat) (img : PILImage) :
    (smart_resize_crop tw th img).width = tw ∧
    (smart_resize_crop tw th img).height = th ∧
    (smart_resize_crop tw th img).mode = img.mode := by
  simp only [smart_resize_crop]
  split
  · exact ⟨rfl, rfl, rfl⟩
  · refine ⟨?_, ?_, rfl⟩ <;>
      simp only [PILImage.crop, PILImage.resize] <;> omega

/-- **C1** For every decodable source image (any positive width and height, in
any of the supported colour modes RGB, RGBA, LA, P or greyscale),
`ImageProcessor.process_image` produces an image of exactly
`target_width × target_height` pixels in 3-channel RGB mode; it never fails
because of the source's aspect ratio (the transform is total on all such
inputs). -/
theorem process_image_geometry (tw th : Nat) (opt : Bool) (img : PILImage)
    (hw : 0 < img.width) (hh : 0 < img.height)
    (htw : 0 < tw) (hth : 0 < th) :
    (process_image tw th opt img).width = tw ∧
    (process_image tw th opt img).height = th ∧
    (process_image tw th opt img).mode = .RGB := by
  unfold process_image
  have hconv := toRGB_eq img
  have hgeo := smart_resize_crop_geometry tw th (toRGB img)
  cases opt <;>
    simp only [Bool.false_eq_true, if_false, if_true, optimize_for_print] <;>
    exact ⟨hgeo.1, hgeo.2.1, by rw [hgeo.2.2, hconv]⟩

theorem process_image_geometry_witness :
    0 < (PILImage.mk 300 400 .RGBA).width ∧
    0 < (PILImage.mk 300 400 .RGBA).height ∧
    0 < 750 ∧ 0 < 1050 ∧
    ((process_image 750 1050 true ⟨300, 400, .RGBA⟩).width = 750 ∧
     (process_image 750 1050 true ⟨300, 400, .RGBA⟩).height = 1050 ∧
     (process_image 750 1050 true ⟨300, 400, .RGBA⟩).mode = .RGB) :=
  ⟨by decide, by decide, by decide, by decide,
    process_image_geometry 750 1050 true ⟨300, 400, .RGBA⟩
      (by decide) (by decide) (by decide) (by decide)⟩

end TCG

namespace TCG

theorem pyInt_eq_floor (q : ℚ) (h : 0 ≤ q) : pyInt q = ⌊q⌋ := if_pos h

/-- **C2** In `_smart_resize_crop`, for every source of width `w` and height
`h`: if `|w/h − target_width/target_height| < 0.1` the image is resized
directly (stretched) to `target_width × target_height` with no crop;
otherwise it is resized by `scale = max(target_width/w, target_height/h)` to
`(⌊w·scale⌋, ⌊h·scale⌋)` — which covers the target canvas on both axes — and
then centre-cropped to the exact target size at offsets
`left = ⌊(scaled_width − target_width)/2⌋` and
`top = ⌊(scaled_height − target_height)/2⌋` (floor division), the crop window
lying entirely inside the scaled image. -/
theorem smart_resize_crop_fill_crop (tw th : Nat) (img : PILImage)
    (hw : 0 < img.width) (hh : 0 < img.height)
    (htw : 0 < tw) (hth : 0 < th) :
    (|(img.width : ℚ) / (img.height : ℚ) - (tw : ℚ) / (th : ℚ)| < 1/10 →
       smart_resize_crop tw th img = img.resize tw th) ∧
    (¬ |(img.width : ℚ) / (img.height : ℚ) - (tw : ℚ) / (th : ℚ)| < 1/10 →
       ∃ nw nh : Nat, ∃ left top : Int,
         nw = (⌊(img.width : ℚ) *
           max ((tw : ℚ) / (img.width : ℚ)) ((th : ℚ) / (img.height : ℚ))⌋).toNat ∧
         nh = (⌊(img.height : ℚ) *
           max ((tw : ℚ) / (img.width : ℚ)) ((th : ℚ) / (img.height : ℚ))⌋).toNat ∧
         left = Int.fdiv ((nw : Int) - (tw : Int)) 2 ∧
         top = Int.fdiv ((nh : Int) - (th : Int)) 2 ∧
         tw ≤ nw ∧ th ≤ nh ∧
         0 ≤ left ∧ 0 ≤ top ∧
         left + (tw : Int) ≤ (nw : Int) ∧ top + (th : Int) ≤ (nh : Int) ∧
         smart_resize_crop tw th img =
           (img.resize nw nh).crop left top (left + tw) (top + th)) := by
  have hw0 : (0:ℚ) < (img.width : ℚ) := by exact_mod_cast hw
  have hh0 : (0:ℚ) < (img.height : ℚ) := by exact_mod_cast hh
  constructor
  · intro hc
    simp only [smart_resize_crop]
    rw [if_pos hc]
  · intro hc
    have hs0 : 0 ≤ max ((tw : ℚ) / (img.width : ℚ)) ((th : ℚ) / (img.height : ℚ)) :=
      le_trans (div_nonneg (Nat.cast_nonneg tw) hw0.le) (le_max_left _ _)
    have hwq : (tw:ℚ) ≤ (img.width : ℚ) *
        max ((tw : ℚ) / (img.width : ℚ)) ((th : ℚ) / (img.height : ℚ)) := by
      calc (tw:ℚ) = (tw:ℚ) / (img.width:ℚ) * (img.width:ℚ) :=
            (div_mul_cancel₀ _ hw0.ne').symm
        _ ≤ max ((tw : ℚ) / (img.width : ℚ)) ((th : ℚ) / (img.height : ℚ)) *
              (img.width:ℚ) :=
            mul_le_mul_of_nonneg_right (le_max_left _ _) hw0.le
        _ = _ := mul_comm _ _
    have hhq : (th:ℚ) ≤ (img.height : ℚ) *
        max ((tw : ℚ) / (img.width : ℚ)) ((th : ℚ) / (img.height : ℚ)) := by
      calc (th:ℚ) = (th:ℚ) / (img.height:ℚ) * (img.height:ℚ) :=
            (div_mul_cancel₀ _ hh0.ne').symm
        _ ≤ max ((tw : ℚ) / (img.width : ℚ)) ((th : ℚ) / (img.height : ℚ)) *
              (img.height:ℚ) :=
            mul_le_mul_of_nonneg_right (le_max_right _ _) hh0.le
        _ = _ := mul_comm _ _
    have hpw : pyInt ((img.width:ℚ) *
        max ((tw : ℚ) / (img.width : ℚ)) ((th : ℚ) / (img.height : ℚ))) =
        ⌊(img.width:ℚ) *
          max ((tw : ℚ) / (img.width : ℚ)) ((th : ℚ) / (img.height : ℚ))⌋ :=
      pyInt_eq_floor _ (mul_nonneg hw0.le hs0)
    have hph : pyInt ((img.height:ℚ) *
        max ((tw : ℚ) / (img.width : ℚ)) ((th : ℚ) / (img.height : ℚ))) =
        ⌊(img.height:ℚ) *
          max ((tw : ℚ) / (img.width : ℚ)) ((th : ℚ) / (img.height : ℚ))⌋ :=
      pyInt_eq_floor _ (mul_nonneg hh0.le hs0)
    have hfw : (tw:ℤ) ≤ ⌊(img.width:ℚ) *
        max ((tw : ℚ) / (img.width : ℚ)) ((th : ℚ) / (img.height : ℚ))⌋ :=
      Int.le_floor.mpr (by exact_mod_cast hwq)
    have hfh : (th:ℤ) ≤ ⌊(img.height:ℚ) *
        max ((tw : ℚ) / (img.width : ℚ)) ((th : ℚ) / (img.height : ℚ))⌋ :=
      Int.le_floor.mpr (by exact_mod_cast hhq)
    refine ⟨_, _, _, _, rfl, rfl, rfl, rfl, ?_, ?_, ?_, ?_, ?_, ?_, ?_⟩
    · omega
    · omega
    · rw [fdiv_two_eq_ediv]; omega
    · rw [fdiv_two_eq_ediv]; omega
    · rw [fdiv_two_eq_ediv]; omega
    · rw [fdiv_two_eq_ediv]; omega
    · simp only [smart_resize_crop]
      rw [if_neg hc, hpw, hph]

end TCG

namespace TCG

theorem smart_resize_crop_fill_crop_witness :
    (0 < (PILImage.mk 800 400 .RGB).width ∧ 0 < (PILImage.mk 800 400 .RGB).height ∧
      0 < 750 ∧ 0 < 1050) ∧
    ¬ |((PILImage.mk 800 400 .RGB).width : ℚ) / ((PILImage.mk 800 400 .RGB).height : ℚ) -
        ((750 : ℕ) : ℚ) / ((1050 : ℕ) : ℚ)| < 1/10 ∧
    (∃ nw nh : Nat, ∃ left top : Int,
      nw = (⌊((PILImage.mk 800 400 .RGB).width : ℚ) *
        max (((750 : ℕ) : ℚ) / ((PILImage.mk 800 400 .RGB).width : ℚ))
          (((1050 : ℕ) : ℚ) / ((PILImage.mk 800 400 .RGB).height : ℚ))⌋).toNat ∧
      nh = (⌊((PILImage.mk 800 400 .RGB).height : ℚ) *
        max (((750 : ℕ) : ℚ) / ((PILImage.mk 800 400 .RGB).width : ℚ))
          (((1050 : ℕ) : ℚ) / ((PILImage.mk 800 400 .RGB).height : ℚ))⌋).toNat ∧
      left = Int.fdiv ((nw : Int) - ((750 : ℕ) : Int)) 2 ∧
      top = Int.fdiv ((nh : Int) - ((1050 : ℕ) : Int)) 2 ∧
      750 ≤ nw ∧ 1050 ≤ nh ∧
      0 ≤ left ∧ 0 ≤ top ∧
      left + ((750 : ℕ) : Int) ≤ (nw : Int) ∧ top + ((1050 : ℕ) : Int) ≤ (nh : Int) ∧
      smart_resize_crop 750 1050 (PILImage.mk 800 400 .RGB) =
        ((PILImage.mk 800 400 .RGB).resize nw nh).crop left top
          (left + (750 : ℕ)) (top + (1050 : ℕ))) :=
  ⟨⟨by decide, by decide, by decide, by decide⟩, by rw [abs_of_nonneg] <;> norm_num,
    (smart_resize_crop_fill_crop 750 1050 (PILImage.mk 800 400 .RGB)
      (by decide) (by decide) (by decide) (by decide)).2 (by rw [abs_of_nonneg] <;> norm_num)⟩

end TCG

namespace TCG

/-! ## Folder monitoring and event deduplication (folder_monitor.py, config.py) -/

/-- `config.SUPPORTED_FORMATS`. -/
def SUPPORTED_FORMATS : List String := [".jpg", ".jpeg", ".png", ".bmp", ".tiff"]

/-- The final component of a path (Python `Path(p).name`). -/
def fileName (p : String) : String :=
  ⟨(p.toList.reverse.takeWhile (fun c => c ≠ '/')).reverse⟩

/-- Python `str.lower()` (ASCII usage). -/
def toLowerStr (s : String) : String := ⟨s.toList.map Char.toLower⟩

/-- Python `Path(p).suffix`: the extension of the final component —
`name[i:]` for the last dot index `i` when `0 < i < len(name) - 1`,
otherwise the empty string. -/
def pathSuffix (p : String) : String :=
  let cs := (fileName p).toList
  if cs.contains '.' then
    let i := cs.length - 1 - cs.reverse.indexOf '.'
    if 0 < i ∧ i < cs.length - 1 then String.mk (cs.drop i) else ""
  else ""

/-- Is the (lower-cased) extension in the supported set?  This is the first
guard of `CardImageHandler._process_file`. -/
def supportedExt (p : String) : Bool :=
  SUPPORTED_FORMATS.contains (toLowerStr (pathSuffix p))

/-- Event kind delivered by the watchdog observer. -/
inductive EvKind where
  | created | modified
  deriving DecidableEq, Repr

/-- One raw filesystem event together with the answers the environment gives
while it is handled: `statSize` is the result of `path.stat().st_size`
(`none` = the stat raised), and `cbRaises` records whether the processing
callback raises when invoked on this occasion. -/
structure WatchStep where
  kind : EvKind
  path : String
  isDir : Bool
  statSize : Option Nat
  cbRaises : Bool
  deriving DecidableEq, Repr

/-- `CardImageHandler._process_file`: extension guard, empty-file / vanished
guard, then add to `processed_files`, invoke the callback, and discard the
path again if the callback raises.  Returns the new `processed_files` set and
the callback invocations made (path, succeeded). -/
def processFileStep (seen : Finset String) (s : WatchStep) :
    Finset String × List (String × Bool) :=
  if ¬ supportedExt s.path then (seen, [])
  else
    match s.statSize with
    | none => (seen, [])
    | some 0 => (seen, [])
    | some (_ + 1) =>
      let seen1 := insert s.path seen
      if s.cbRaises then (seen1.erase s.path, [(s.path, false)])
      else (seen1, [(s.path, true)])

/-- `CardImageHandler.on_created` / `on_modified`: directories are ignored;
a `modified` event for a path already in `processed_files` is ignored;
everything else goes through `_process_file`. -/
def handleStep (seen : Finset String) (s : WatchStep) :
    Finset String × List (String × Bool) :=
  match s.kind with
  | .created => if s.isDir then (seen, []) else processFileStep seen s
  | .modified =>
    if s.isDir then (seen, [])
    else if s.path ∈ seen then (seen, [])
    else processFileStep seen s

/-- Run the handler over a sequence of events, accumulating the callback
invocation log. -/
def runHandler (seen : Finset String) (log : List (String × Bool))
    (evs : List WatchStep) : Finset String × List (String × Bool) :=
  match evs with
  | [] => (seen, log)
  | s :: rest =>
    let r := handleStep seen s
    runHandler r.1 (log ++ r.2) rest

/-- The outcome of the most recent callback invocation for `p` recorded in
the log (`none` = never invoked). -/
def lastStatus (p : String) (log : List (String × Bool)) : Option Bool :=
  ((log.filter (fun q => q.1 = p)).getLast?).map (·.2)

/-- The SeenSet invariant relating the set to the invocation log. -/
def SeenInv (seen : Finset String) (log : List (String × Bool)) : Prop :=
  ∀ p : String, p ∈ seen ↔ lastStatus p log = some true

end TCG

namespace TCG

theorem lastStatus_append_one (p q : String) (b : Bool)
    (log : List (String × Bool)) :
    lastStatus p (log ++ [(q, b)]) =
      if q = p then some b else lastStatus p log := by
  unfold lastStatus
  rw [List.filter_append]
  by_cases hq : q = p
  · subst hq
    simp
  · simp [hq]

theorem seenInv_empty : SeenInv (∅ : Finset String) [] := by
  intro p
  simp [lastStatus]

theorem processFileStep_preserves (seen : Finset String)
    (log : List (String × Bool)) (s : WatchStep) (h : SeenInv seen log) :
    SeenInv (processFileStep seen s).1 (log ++ (processFileStep seen s).2) := by
  unfold processFileStep
  split
  · simpa using h
  · cases hss : s.statSize with
    | none => simpa using h
    | some n =>
      cases n with
      | zero => simpa using h
      | succ m =>
        cases hcb : s.cbRaises <;> dsimp only <;> intro q <;>
          by_cases hq : s.path = q
        · subst hq
          simp [lastStatus_append_one, Finset.mem_insert]
        · simp [lastStatus_append_one, Finset.mem_insert, hq, Ne.symm hq, h q]
        · subst hq
          simp [lastStatus_append_one, Finset.mem_erase]
        · simp [lastStatus_append_one, Finset.mem_erase, Finset.mem_insert,
            hq, Ne.symm hq, h q]

theorem handleStep_cases (seen : Finset String) (s : WatchStep) :
    handleStep seen s = (seen, []) ∨
      handleStep seen s = processFileStep seen s := by
  unfold handleStep
  cases s.kind <;> dsimp only
  · by_cases hd : s.isDir = true
    · rw [if_pos hd]; exact Or.inl rfl
    · rw [if_neg hd]; exact Or.inr rfl
  · by_cases hd : s.isDir = true
    · rw [if_pos hd]; exact Or.inl rfl
    · rw [if_neg hd]
      by_cases hm : s.path ∈ seen
      · rw [if_pos hm]; exact Or.inl rfl
      · rw [if_neg hm]; exact Or.inr rfl

theorem handleStep_preserves (seen : Finset String)
    (log : List (String × Bool)) (s : WatchStep) (h : SeenInv seen log) :
    SeenInv (handleStep seen s).1 (log ++ (handleStep seen s).2) := by
  rcases handleStep_cases seen s with hc | hc <;> rw [hc]
  · simpa using h
  · exact processFileStep_preserves seen log s h

theorem runHandler_inv (evs : List WatchStep) (seen : Finset String)
    (log : List (String × Bool)) (h : SeenInv seen log) :
    SeenInv (runHandler seen log evs).1 (runHandler seen log evs).2 := by
  induction evs generalizing seen log with
  | nil => exact h
  | cons s rest ih =>
    exact ih _ _ (handleStep_preserves seen log s h)

end TCG

namespace TCG

theorem processFileStep_invoked (seen : Finset String) (s : WatchStep) (n : Nat)
    (hext : supportedExt s.path = true) (hn : s.statSize = some (n + 1)) :
    (processFileStep seen s).2 = [(s.path, !s.cbRaises)] := by
  unfold processFileStep
  rw [if_neg (by simp [hext]), hn]
  dsimp only
  cases s.cbRaises <;> rfl

theorem handleStep_created_processes (seen : Finset String) (s : WatchStep)
    (hk : s.kind = .created) (hd : s.isDir = false) :
    handleStep seen s = processFileStep seen s := by
  unfold handleStep
  rw [hk]
  dsimp only
  rw [if_neg (by simp [hd])]

theorem handleStep_modified_processes (seen : Finset String) (s : WatchStep)
    (hk : s.kind = .modified) (hd : s.isDir = false) (hm : s.path ∉ seen) :
    handleStep seen s = processFileStep seen s := by
  unfold handleStep
  rw [hk]
  dsimp only
  rw [if_neg (by simp [hd]), if_neg hm]

theorem handleStep_modified_ignored (seen : Finset String) (s : WatchStep)
    (hk : s.kind = .modified) (hm : s.path ∈ seen) :
    (handleStep seen s).2 = [] := by
  unfold handleStep
  rw [hk]
  dsimp only
  by_cases hd : s.isDir = true
  · rw [if_pos hd]
  · rw [if_neg hd, if_pos hm]

/-- **C5** SeenSet invariant: after any sequence of created/modified events,
a path is in `processed_files` iff its most recent hand-off to the processing
callback did not raise; consequently a path evicted after a callback failure
is accepted again (the callback is invoked exactly once) by the next
created or modified event for it that passes the file guards, and a modified
event for a path currently in the set invokes the callback zero times. -/
theorem dedup_seen_set_invariant (evs : List WatchStep) (p : String) :
    (p ∈ (runHandler ∅ [] evs).1 ↔
      lastStatus p (runHandler ∅ [] evs).2 = some true) ∧
    (∀ s : WatchStep, s.path = p → s.isDir = false →
      supportedExt p = true → (∃ n, s.statSize = some (n + 1)) →
      lastStatus p (runHandler ∅ [] evs).2 = some false →
      (handleStep (runHandler ∅ [] evs).1 s).2 = [(p, !s.cbRaises)]) ∧
    (∀ s : WatchStep, s.path = p → s.kind = .modified →
      p ∈ (runHandler ∅ [] evs).1 →
      (handleStep (runHandler ∅ [] evs).1 s).2 = []) := by
  have hinv := runHandler_inv evs ∅ [] seenInv_empty
  refine ⟨hinv p, ?_, ?_⟩
  · rintro s rfl hd hext ⟨n, hn⟩ hlast
    have hnot : s.path ∉ (runHandler ∅ [] evs).1 := by
      rw [hinv s.path, hlast]
      simp
    cases hk : s.kind
    · rw [handleStep_created_processes _ s hk hd]
      exact processFileStep_invoked _ s n hext hn
    · rw [handleStep_modified_processes _ s hk hd hnot]
      exact processFileStep_invoked _ s n hext hn
  · rintro s rfl hk hmem
    exact handleStep_modified_ignored _ s hk hmem

theorem dedup_seen_set_invariant_witness :
    ("card.jpg" ∈
        (runHandler ∅ [] [⟨.created, "card.jpg", false, some 5, true⟩]).1 ↔
      lastStatus "card.jpg"
        (runHandler ∅ [] [⟨.created, "card.jpg", false, some 5, true⟩]).2 =
        some true) ∧
    (handleStep (runHandler ∅ [] [⟨.created, "card.jpg", false, some 5, true⟩]).1
        ⟨.modified, "card.jpg", false, some 5, false⟩).2 =
      [("card.jpg", !(false : Bool))] :=
  ⟨(dedup_seen_set_invariant [⟨.created, "card.jpg", false, some 5, true⟩]
      "card.jpg").1,
   (dedup_seen_set_invariant [⟨.created, "card.jpg", false, some 5, true⟩]
      "card.jpg").2.1 ⟨.modified, "card.jpg", false, some 5, false⟩
      rfl rfl (by decide) ⟨4, rfl⟩ (by decide)⟩

end TCG

namespace TCG

/-! ## Print job status and the polling monitor
    (print_controller.py, tcg_card_printer.py) -/

/-- The attribute dictionary CUPS returns for an active job; only the
`job-state` key matters here (read as `job_status.get('job-state', 0)`). -/
structure JobAttrs where
  job_state : Option Nat
  deriving DecidableEq, Repr

/-- Python `job_status.get('job-state', 0)`. -/
def JobAttrs.getJobState (a : JobAttrs) : Nat := a.job_state.getD 0

/-- `PrintController.get_job_status`: queries `conn.getJobs()`; a raised
exception is caught and `None` returned; otherwise the job's attributes if
the job is listed, else `None`. -/
def get_job_status (jobsResult : Except String (List (Nat × JobAttrs)))
    (job_id : Nat) : Option JobAttrs :=
  match jobsResult with
  | .error _ => none
  | .ok jobs =>
    match jobs.lookup job_id with
    | some a => some a
    | none => none

/-- Outcome of `TCGCardPrinter._monitor_print_job`. -/
inductive MonitorResult where
  | completed | aborted | timedOut
  deriving DecidableEq, Repr

/-- The polling loop of `_monitor_print_job`, time discretised: iteration `i`
runs at elapsed time `2*i` seconds (each continuing iteration ends in
`time.sleep(2)`); the loop runs while `elapsed < timeout`.  `polls i` is the
`get_job_status` answer at the `i`-th poll. -/
def monitorLoop (polls : Nat → Option JobAttrs) (timeout : Nat) (i : Nat) :
    MonitorResult :=
  if h : 2 * i < timeout then
    match polls i with
    | none => .completed
    | some a =>
      if 7 ≤ a.getJobState then .aborted
      else monitorLoop polls timeout (i + 1)
  else .timedOut
termination_by timeout - 2 * i
decreasing_by omega

/-- `_monitor_print_job` with its default 60-second timeout. -/
def monitor_print_job (polls : Nat → Option JobAttrs) : MonitorResult :=
  monitorLoop polls 60 0

theorem monitorLoop_none (polls : Nat → Option JobAttrs) (t i : Nat)
    (ht : 2 * i < t) (hp : polls i = none) :
    monitorLoop polls t i = .completed := by
  rw [monitorLoop, dif_pos ht, hp]

theorem monitorLoop_abort (polls : Nat → Option JobAttrs) (t i : Nat)
    (a : JobAttrs) (ht : 2 * i < t) (hp : polls i = some a)
    (hs : 7 ≤ a.getJobState) :
    monitorLoop polls t i = .aborted := by
  rw [monitorLoop, dif_pos ht, hp]
  exact if_pos hs

theorem monitorLoop_progress (polls : Nat → Option JobAttrs) (t i : Nat)
    (a : JobAttrs) (ht : 2 * i < t) (hp : polls i = some a)
    (hs : a.getJobState < 7) :
    monitorLoop polls t i = monitorLoop polls t (i + 1) := by
  rw [monitorLoop, dif_pos ht, hp]
  exact if_neg (by omega)

theorem monitorLoop_timeout (polls : Nat → Option JobAttrs) (t i : Nat)
    (ht : ¬ 2 * i < t) :
    monitorLoop polls t i = .timedOut := by
  rw [monitorLoop, dif_neg ht]

theorem monitorLoop_skip_to (polls : Nat → Option JobAttrs) (t i k : Nat)
    (hik : i ≤ k)
    (hmid : ∀ j, i ≤ j → j < k →
      2 * j < t ∧ ∃ a, polls j = some a ∧ a.getJobState < 7) :
    monitorLoop polls t i = monitorLoop polls t k := by
  revert hmid
  induction k, hik using Nat.le_induction with
  | base => intro _; rfl
  | succ k hik ih =>
    intro hmid
    obtain ⟨ht, a, hp, hs⟩ := hmid k hik (Nat.lt_succ_self k)
    rw [← monitorLoop_progress polls t k a ht hp hs]
    exact ih fun j hij hjk => hmid j hij (Nat.lt_succ_of_lt hjk)

end TCG

namespace TCG

/-- **C6** For every polled print job: absence from the device's active-job
listing resolves the monitor as Completed; a listed job whose numeric state
is at or above the abort threshold 7 resolves as Aborted at that very poll
(within one poll interval); and if every poll inside the 60-second window
reports an in-progress state, the loop terminates at the bounded timeout
with TimedOut. -/
theorem monitor_job_lifecycle (polls : Nat → Option JobAttrs) (k : Nat) :
    (2 * k < 60 →
      (∀ j, j < k → ∃ a, polls j = some a ∧ a.getJobState < 7) →
      ((polls k = none → monitor_print_job polls = .completed) ∧
       (∀ a, polls k = some a → 7 ≤ a.getJobState →
         monitor_print_job polls = .aborted))) ∧
    ((∀ j, 2 * j < 60 → ∃ a, polls j = some a ∧ a.getJobState < 7) →
      monitor_print_job polls = .timedOut) := by
  constructor
  · intro hk hbefore
    have hskip : monitorLoop polls 60 0 = monitorLoop polls 60 k :=
      monitorLoop_skip_to polls 60 0 k (Nat.zero_le k) fun j _ hjk => by
        refine ⟨by omega, hbefore j hjk⟩
    constructor
    · intro hnone
      rw [monitor_print_job, hskip]
      exact monitorLoop_none polls 60 k hk hnone
    · intro a ha hs
      rw [monitor_print_job, hskip]
      exact monitorLoop_abort polls 60 k a hk ha hs
  · intro hall
    have hskip : monitorLoop polls 60 0 = monitorLoop polls 60 30 :=
      monitorLoop_skip_to polls 60 0 30 (Nat.zero_le 30) fun j _ hjk => by
        refine ⟨by omega, hall j (by omega)⟩
    rw [monitor_print_job, hskip]
    exact monitorLoop_timeout polls 60 30 (by omega)

theorem monitor_job_lifecycle_witness :
    monitor_print_job (fun _ => none) = .completed ∧
    monitor_print_job (fun _ => some ⟨some 7⟩) = .aborted ∧
    monitor_print_job (fun _ => some ⟨some 5⟩) = .timedOut :=
  ⟨((monitor_job_lifecycle (fun _ => none) 0).1 (by omega)
      (fun j hj => absurd hj (Nat.not_lt_zero j))).1 rfl,
   ((monitor_job_lifecycle (fun _ => some ⟨some 7⟩) 0).1 (by omega)
      (fun j hj => absurd hj (Nat.not_lt_zero j))).2 ⟨some 7⟩ rfl
      (by decide),
   (monitor_job_lifecycle (fun _ => some ⟨some 5⟩) 0).2
      (fun j _ => ⟨⟨some 5⟩, rfl, by decide⟩)⟩

/-- **C9** If the device's job-listing query raises during polling,
`get_job_status` returns `None` — the same value as when the job is simply
absent from the listing — so a monitor whose first poll hits such a failure
reports the job as Completed: at the monitoring interface a transient
listing failure is indistinguishable from normal completion. -/
theorem get_job_status_failure_like_completion (e : String)
    (jobs : List (Nat × JobAttrs)) (job_id : Nat)
    (habs : jobs.lookup job_id = none) :
    get_job_status (.error e) job_id = none ∧
    get_job_status (.error e) job_id = get_job_status (.ok jobs) job_id ∧
    (∀ polls : Nat → Option JobAttrs,
      polls 0 = get_job_status (.error e) job_id →
      monitor_print_job polls = .completed) := by
  refine ⟨rfl, ?_, ?_⟩
  · show none = get_job_status (.ok jobs) job_id
    rw [get_job_status, habs]
  · intro polls hp
    exact monitorLoop_none polls 60 0 (by omega) hp

theorem get_job_status_failure_like_completion_witness :
    (List.lookup 7 [(3, JobAttrs.mk (some 5))] = none) ∧
    (get_job_status (.error "connection refused") 7 = none ∧
     get_job_status (.error "connection refused") 7 =
       get_job_status (.ok [(3, JobAttrs.mk (some 5))]) 7 ∧
     (∀ polls : Nat → Option JobAttrs,
        polls 0 = get_job_status (.error "connection refused") 7 →
        monitor_print_job polls = .completed)) :=
  ⟨by decide,
   get_job_status_failure_like_completion "connection refused"
     [(3, JobAttrs.mk (some 5))] 7 (by decide)⟩

end TCG

namespace TCG

/-! ## Error handling and the orchestrator (logger_setup.py, tcg_card_printer.py) -/

/-- Python substring test `needle in hay` on character lists. -/
def listContainsSub (needle : List Char) : List Char → Bool
  | [] => needle.isEmpty
  | c :: rest => needle.isPrefixOf (c :: rest) || listContainsSub needle rest

/-- A Python exception, abstracted to what `ErrorHandler.handle_error`
inspects: its class (`FileNotFoundError` / `PermissionError` / other) and
its message `str(error)`. -/
structure PyErr where
  isFileNotFound : Bool
  isPermission : Bool
  msg : String
  deriving DecidableEq, Repr

/-- The suggested-action strings returned by `ErrorHandler.handle_error`. -/
inductive ErrAction where
  | check_file_path | check_permissions | check_printer | retry
  deriving DecidableEq, Repr

/-- The action-selection tail of `ErrorHandler.handle_error`:
`FileNotFoundError → "check_file_path"`, `PermissionError →
"check_permissions"`, a message containing `"printer"` (lower-cased) →
`"check_printer"`, anything else → `"retry"`. -/
def handle_error_action (e : PyErr) : ErrAction :=
  if e.isFileNotFound then .check_file_path
  else if e.isPermission then .check_permissions
  else if listContainsSub "printer".toList (toLowerStr e.msg).toList then
    .check_printer
  else .retry

/-- `config.PROCESSED_FOLDER` (its name; the concrete directory is
environment-dependent). -/
def PROCESSED_FOLDER : String := "processed"

/-- The output path `process_image` derives when called with no explicit
output: `config.PROCESSED_FOLDER / f"print_{input_path.name}"`. -/
def processedPath (input_path : String) : String :=
  PROCESSED_FOLDER ++ "/" ++ ("print_" ++ fileName input_path)

/-- The orchestrator state touched by `_process_and_print`: the retry queue
`self.print_queue`, the record of files unlinked so far, and the error
handler's `error_count`. -/
structure AppState where
  print_queue : List String
  deleted : List String
  error_count : Nat
  deriving DecidableEq, Repr

/-- The answers the collaborators give during one `_process_and_print` call:
whether `process_image` succeeds (else the exception raised), the printer
readiness reported by `get_printer_status().get('is_ready')`, the result of
`print_image` (job id or exception), the job-status answers for the monitor,
and the result of `Path.unlink`. -/
structure CallEnv where
  processResult : Except PyErr Unit
  printerReady : Bool
  printResult : Except PyErr Nat
  polls : Nat → Option JobAttrs
  unlinkResult : Except PyErr Unit

/-- The `except` clause of `_process_and_print`: `handle_error` is invoked
(incrementing its error count) and, exactly when it answers `"retry"`, the
original `image_path` is appended to `self.print_queue`. -/
def handleErrorStep (e : PyErr) (image_path : String) (st : AppState) :
    AppState :=
  let st1 := { st with error_count := st.error_count + 1 }
  if handle_error_action e = .retry then
    { st1 with print_queue := st1.print_queue ++ [image_path] }
  else st1

/-- `TCGCardPrinter._process_and_print`: transform, check readiness (queueing
the processed path if not ready), submit, monitor, then optionally delete the
original.  The second component reports the monitor outcome when monitoring
ran (`none` = the call never reached monitoring). -/
def process_and_print (auto_delete : Bool) (env : CallEnv)
    (image_path : String) (st : AppState) : AppState × Option MonitorResult :=
  match env.processResult with
  | .error e => (handleErrorStep e image_path st, none)
  | .ok _ =>
    let processed_path := processedPath image_path
    if !env.printerReady then
      ({ st with print_queue := st.print_queue ++ [processed_path] }, none)
    else
      match env.printResult with
      | .error e => (handleErrorStep e image_path st, none)
      | .ok _job_id =>
        let mres := monitor_print_job env.polls
        if auto_delete then
          match env.unlinkResult with
          | .ok _ => ({ st with deleted := st.deleted ++ [image_path] }, some mres)
          | .error e => (handleErrorStep e image_path st, some mres)
        else (st, some mres)

end TCG

namespace TCG

/-- **C3** counterexample: with the printer not ready after a successful
transform of `watch/card.jpg`, the queue receives the *processed* artifact
path `processed/print_card.jpg`, and the original path is nowhere in the
queue — refuting the claim that the original (pre-transform) path is
appended. -/
theorem not_ready_queues_processed_counterexample :
    (process_and_print false
        ⟨.ok (), false, .ok 0, fun _ => none, .ok ()⟩
        "watch/card.jpg" ⟨[], [], 0⟩).1.print_queue =
      ["processed/print_card.jpg"] ∧
    "watch/card.jpg" ∉
      (process_and_print false
        ⟨.ok (), false, .ok 0, fun _ => none, .ok ()⟩
        "watch/card.jpg" ⟨[], [], 0⟩).1.print_queue := by
  constructor <;> decide

/-- **C3** (amended) In the steady-state path, for every qualifying file that
has been transformed, if the device then reports not-ready the orchestrator
appends the *transformed artifact's* path (`processed/print_<name>`) — not
the original source path — to the RetryQueue and returns without
submitting. -/
theorem process_and_print_not_ready_queues (auto_delete : Bool)
    (env : CallEnv) (image_path : String) (st : AppState)
    (hok : env.processResult = .ok ()) (hnr : env.printerReady = false) :
    process_and_print auto_delete env image_path st =
      ({ st with print_queue := st.print_queue ++ [processedPath image_path] },
       none) := by
  simp [process_and_print, hok, hnr]

theorem process_and_print_not_ready_queues_witness :
    (CallEnv.mk (.ok ()) false (.ok 0) (fun _ => none) (.ok ())).processResult
        = .ok () ∧
    (CallEnv.mk (.ok ()) false (.ok 0) (fun _ => none) (.ok ())).printerReady
        = false ∧
    process_and_print true
        (CallEnv.mk (.ok ()) false (.ok 0) (fun _ => none) (.ok ()))
        "watch/deck.png" ⟨[], [], 0⟩ =
      (⟨["processed/print_deck.png"], [], 0⟩, none) :=
  ⟨rfl, rfl, by
    rw [process_and_print_not_ready_queues true
      (CallEnv.mk (.ok ()) false (.ok 0) (fun _ => none) (.ok ()))
      "watch/deck.png" ⟨[], [], 0⟩ rfl rfl]
    decide⟩

/-- **C4** counterexample: a monitored job that ends Aborted (job-state 7 at
the very first poll) with auto-delete enabled still gets its original file
deleted — refuting the claim that Aborted jobs leave the original intact. -/
theorem aborted_job_still_deletes_counterexample :
    (process_and_print true
        ⟨.ok (), true, .ok 1, fun _ => some ⟨some 7⟩, .ok ()⟩
        "watch/card.jpg" ⟨[], [], 0⟩).2 = some .aborted ∧
    "watch/card.jpg" ∈
      (process_and_print true
        ⟨.ok (), true, .ok 1, fun _ => some ⟨some 7⟩, .ok ()⟩
        "watch/card.jpg" ⟨[], [], 0⟩).1.deleted := by
  have hm : monitor_print_job (fun _ => some ⟨some 7⟩) = .aborted :=
    monitorLoop_abort (fun _ => some ⟨some 7⟩) 60 0 ⟨some 7⟩ (by omega) rfl
      (by decide)
  constructor
  · show some (monitor_print_job (fun _ => some ⟨some 7⟩)) = some .aborted
    rw [hm]
  · decide

/-- **C4** (amended) When auto-delete is enabled and the call reaches the
deletion step (transform and submission succeeded, the device was ready and
`unlink` does not raise), the original file is deleted after the monitoring
step *regardless of the monitored outcome* — including jobs that end Aborted
or time out. -/
theorem process_and_print_deletes_after_monitor (env : CallEnv)
    (image_path : String) (st : AppState)
    (hok : env.processResult = .ok ()) (hr : env.printerReady = true)
    (hpr : ∃ j, env.printResult = .ok j) (hu : env.unlinkResult = .ok ()) :
    process_and_print true env image_path st =
      ({ st with deleted := st.deleted ++ [image_path] },
       some (monitor_print_job env.polls)) := by
  obtain ⟨j, hj⟩ := hpr
  simp [process_and_print, hok, hr, hj, hu]

theorem process_and_print_deletes_after_monitor_witness :
    (CallEnv.mk (.ok ()) true (.ok 1) (fun _ => some ⟨some 5⟩)
        (.ok ())).processResult = .ok () ∧
    (CallEnv.mk (.ok ()) true (.ok 1) (fun _ => some ⟨some 5⟩)
        (.ok ())).printerReady = true ∧
    (∃ j, (CallEnv.mk (.ok ()) true (.ok 1) (fun _ => some ⟨some 5⟩)
        (.ok ())).printResult = .ok j) ∧
    (CallEnv.mk (.ok ()) true (.ok 1) (fun _ => some ⟨some 5⟩)
        (.ok ())).unlinkResult = .ok () ∧
    process_and_print true
        (CallEnv.mk (.ok ()) true (.ok 1) (fun _ => some ⟨some 5⟩) (.ok ()))
        "watch/deck.png" ⟨[], [], 0⟩ =
      (⟨[], ["watch/deck.png"], 0⟩,
       some (monitor_print_job (fun _ => some ⟨some 5⟩))) :=
  ⟨rfl, rfl, ⟨1, rfl⟩, rfl, by
    rw [process_and_print_deletes_after_monitor
      (CallEnv.mk (.ok ()) true (.ok 1) (fun _ => some ⟨some 5⟩) (.ok ()))
      "watch/deck.png" ⟨[], [], 0⟩ rfl rfl ⟨1, rfl⟩ rfl]
    rfl⟩

end TCG

namespace TCG

/-- **C7** counterexample: a per-job submission failure whose message
contains `"printer"` (here `"Printer not responding"`) is classified
`check_printer` by `handle_error`, so `_process_and_print` discards it — the
retry queue stays empty, refuting the claim that every submission failure is
queued for retry. -/
theorem submit_failure_discarded_counterexample :
    (process_and_print false
        ⟨.ok (), true, .error ⟨false, false, "Printer not responding"⟩,
          fun _ => none, .ok ()⟩
        "watch/card.jpg" ⟨[], [], 0⟩).1.print_queue = [] ∧
    handle_error_action ⟨false, false, "Printer not responding"⟩ =
      .check_printer := by
  constructor <;> decide

/-- **C7** (amended) A per-job submission failure during steady state is
appended to the RetryQueue exactly when `handle_error` answers `"retry"` —
i.e. when the exception is not a `FileNotFoundError`, not a
`PermissionError`, and its message does not contain `"printer"`
(case-insensitively); all other submission failures are logged and
discarded. -/
theorem process_and_print_submit_failure_queue (env : CallEnv)
    (image_path : String) (st : AppState) (auto_delete : Bool) (e : PyErr)
    (hok : env.processResult = .ok ()) (hr : env.printerReady = true)
    (he : env.printResult = .error e) :
    process_and_print auto_delete env image_path st =
      (handleErrorStep e image_path st, none) ∧
    (handleErrorStep e image_path st).print_queue =
      (if handle_error_action e = .retry then st.print_queue ++ [image_path]
       else st.print_queue) ∧
    (handle_error_action e = .retry ↔
      e.isFileNotFound = false ∧ e.isPermission = false ∧
      listContainsSub "printer".toList (toLowerStr e.msg).toList = false) := by
  refine ⟨?_, ?_, ?_⟩
  · simp [process_and_print, hok, hr, he]
  · by_cases ha : handle_error_action e = .retry <;>
      simp [handleErrorStep, ha]
  · unfold handle_error_action
    split_ifs with h1 h2 h3 <;> simp_all [Bool.not_eq_true]

theorem process_and_print_submit_failure_queue_witness :
    (CallEnv.mk (.ok ()) true
        (.error ⟨false, false, "spooler jam"⟩) (fun _ => none)
        (.ok ())).processResult = .ok () ∧
    (CallEnv.mk (.ok ()) true
        (.error ⟨false, false, "spooler jam"⟩) (fun _ => none)
        (.ok ())).printerReady = true ∧
    (CallEnv.mk (.ok ()) true
        (.error ⟨false, false, "spooler jam"⟩) (fun _ => none)
        (.ok ())).printResult = .error ⟨false, false, "spooler jam"⟩ ∧
    (process_and_print false
        (CallEnv.mk (.ok ()) true
          (.error ⟨false, false, "spooler jam"⟩) (fun _ => none) (.ok ()))
        "watch/card.jpg" ⟨[], [], 0⟩).1.print_queue = ["watch/card.jpg"] :=
  ⟨rfl, rfl, rfl, by
    have h := process_and_print_submit_failure_queue
      (CallEnv.mk (.ok ()) true
        (.error ⟨false, false, "spooler jam"⟩) (fun _ => none) (.ok ()))
      "watch/card.jpg" ⟨[], [], 0⟩ false ⟨false, false, "spooler jam"⟩
      rfl rfl rfl
    rw [h.1]
    decide⟩

end TCG

namespace TCG

/-! ## Startup drain (FolderMonitor.process_existing_files) -/

/-- One entry of `watch_folder.iterdir()`: its path and whether it is a
regular file. -/
structure DirEntry where
  path : String
  is_file : Bool
  deriving DecidableEq, Repr

/-- `FolderMonitor.process_existing_files`: iterate the watch folder, and for
every regular file with a supported extension invoke the processing callback
directly (exceptions are caught and logged, so every qualifying file is
invoked).  The handler's `processed_files` set (`seen`) is never read or
written; the second component lists the callback invocations in order. -/
def process_existing_files (seen : Finset String) (entries : List DirEntry) :
    Finset String × List String :=
  (seen,
   (entries.filter (fun e => e.is_file && supportedExt e.path)).map
     (fun e => e.path))

/-- **C10** The startup drain invokes the processing callback directly on
every qualifying file and neither reads nor modifies SeenSet: the set is
returned unchanged for every input, so a path processed by the drain (and
absent from the set) is processed again when a later `modified` event for it
passes the file guards. -/
theorem process_existing_files_frame (seen : Finset String)
    (entries : List DirEntry) :
    (process_existing_files seen entries).1 = seen ∧
    (∀ e : DirEntry, e ∈ entries → e.is_file = true →
      supportedExt e.path = true →
      e.path ∈ (process_existing_files seen entries).2) ∧
    (∀ s : WatchStep, s.kind = .modified → s.isDir = false →
      supportedExt s.path = true → (∃ n, s.statSize = some (n + 1)) →
      s.path ∉ seen →
      (handleStep (process_existing_files seen entries).1 s).2 =
        [(s.path, !s.cbRaises)]) := by
  refine ⟨rfl, ?_, ?_⟩
  · intro e he hf hx
    simp only [process_existing_files, List.mem_map]
    exact ⟨e, List.mem_filter.mpr ⟨he, by simp [hf, hx]⟩, rfl⟩
  · rintro s hk hd hx ⟨n, hn⟩ hnot
    show (handleStep seen s).2 = [(s.path, !s.cbRaises)]
    rw [handleStep_modified_processes seen s hk hd hnot]
    exact processFileStep_invoked seen s n hx hn

theorem process_existing_files_frame_witness :
    (process_existing_files ∅
        [⟨"watch/card.jpg", true⟩, ⟨"watch/notes.txt", true⟩]).1 = ∅ ∧
    "watch/card.jpg" ∈
      (process_existing_files ∅
        [⟨"watch/card.jpg", true⟩, ⟨"watch/notes.txt", true⟩]).2 ∧
    (handleStep
        (process_existing_files ∅
          [⟨"watch/card.jpg", true⟩, ⟨"watch/notes.txt", true⟩]).1
        ⟨.modified, "watch/card.jpg", false, some 9, false⟩).2 =
      [("watch/card.jpg", !(false : Bool))] :=
  ⟨(process_existing_files_frame ∅
      [⟨"watch/card.jpg", true⟩, ⟨"watch/notes.txt", true⟩]).1,
   (process_existing_files_frame ∅
      [⟨"watch/card.jpg", true⟩, ⟨"watch/notes.txt", true⟩]).2.1
      ⟨"watch/card.jpg", true⟩ (by decide) rfl (by decide),
   (process_existing_files_frame ∅
      [⟨"watch/card.jpg", true⟩, ⟨"watch/notes.txt", true⟩]).2.2
      ⟨.modified, "watch/card.jpg", false, some 9, false⟩
      rfl rfl (by decide) ⟨8, rfl⟩ (by decide)⟩

end TCG

namespace TCG

/-! ## The retry-queue sweep (TCGCardPrinter._process_print_queue)

`_process_print_queue` pops `self.print_queue` from the front while the
device keeps reporting ready, handing each popped path to
`_process_and_print`.  `ready j` is the `is_ready` answer of the status
query made just before the `j`-th pop (the query before the loop is
`ready 0`); `eff j` is whatever the `j`-th `_process_and_print` call itself
appends to `self.print_queue` (a re-queue on not-ready or on a retry-classed
error). -/

/-- The sweep's state: the live queue, the popped-and-reprocessed paths in
order, the number of pops made, and whether the sweep has returned. -/
structure SweepState where
  queue : List String
  log : List String
  pops : Nat
  done : Bool
  deriving DecidableEq, Repr

/-- One iteration of `_process_print_queue`'s `while` loop (including the
guards before it): return if the queue is empty or the last status was
not-ready, else `pop(0)`, reprocess, and append that call's re-queues. -/
def sweep_step (ready : Nat → Bool) (eff : Nat → List String)
    (s : SweepState) : SweepState :=
  if s.done then s
  else
    match s.queue with
    | [] => { s with done := true }
    | x :: rest =>
      if ready s.pops then
        { queue := rest ++ eff s.pops, log := s.log ++ [x],
          pops := s.pops + 1, done := false }
      else { s with done := true }

/-- `k` iterations of the sweep. -/
def sweep_iter (ready : Nat → Bool) (eff : Nat → List String) :
    Nat → SweepState → SweepState
  | 0, s => s
  | k + 1, s => sweep_iter ready eff k (sweep_step ready eff s)

/-- The sweep as entered by `_process_print_queue` on a queue `q0`. -/
def sweep_init (q0 : List String) : SweepState := ⟨q0, [], 0, false⟩

/-- Everything enqueued by the first `n` reprocessing calls, in order. -/
def effCat (eff : Nat → List String) : Nat → List String
  | 0 => []
  | n + 1 => effCat eff n ++ eff n

/-- Sweep invariant: the processed log is the first `pops` entries of the
enqueue-order stream, the queue is the rest, every pop was preceded by a
ready answer, and a finished sweep stopped on an empty queue or a not-ready
answer. -/
def SweepInv (ready : Nat → Bool) (eff : Nat → List String)
    (q0 : List String) (s : SweepState) : Prop :=
  s.log = (q0 ++ effCat eff s.pops).take s.pops ∧
  s.queue = (q0 ++ effCat eff s.pops).drop s.pops ∧
  (∀ j, j < s.pops → ready j = true) ∧
  (s.done = true → s.queue = [] ∨ ready s.pops = false)

theorem sweep_step_preserves (ready : Nat → Bool) (eff : Nat → List String)
    (q0 : List String) (s : SweepState) (h : SweepInv ready eff q0 s) :
    SweepInv ready eff q0 (sweep_step ready eff s) := by
  obtain ⟨h1, h2, h3, h4⟩ := h
  unfold sweep_step
  by_cases hd : s.done = true
  · rw [if_pos hd]
    exact ⟨h1, h2, h3, h4⟩
  · rw [if_neg hd]
    cases hq : s.queue with
    | nil =>
      dsimp only
      exact ⟨h1, hq ▸ h2, h3, fun _ => Or.inl rfl⟩
    | cons x rest =>
      dsimp only
      by_cases hr : ready s.pops = true
      · rw [if_pos hr]
        rw [hq] at h2
        have hlen : s.pops < (q0 ++ effCat eff s.pops).length := by
          have hl := congrArg List.length h2
          simp only [List.length_cons, List.length_drop] at hl
          omega
        have hdec := List.drop_eq_getElem_cons (l := q0 ++ effCat eff s.pops)
          (n := s.pops) hlen
        rw [hdec] at h2
        injection h2 with hx hrest
        have hstream : q0 ++ effCat eff (s.pops + 1) =
            (q0 ++ effCat eff s.pops) ++ eff s.pops := by
          rw [effCat, List.append_assoc]
        have htake : (q0 ++ effCat eff (s.pops + 1)).take (s.pops + 1) =
            (q0 ++ effCat eff s.pops).take s.pops ++
              [(q0 ++ effCat eff s.pops)[s.pops]] := by
          rw [hstream, List.take_append_of_le_length (by omega),
            List.take_succ, List.getElem?_eq_getElem hlen]
          rfl
        have hdrop : (q0 ++ effCat eff (s.pops + 1)).drop (s.pops + 1) =
            (q0 ++ effCat eff s.pops).drop (s.pops + 1) ++ eff s.pops := by
          rw [hstream, List.drop_append_of_le_length (by omega)]
        refine ⟨?_, ?_, ?_, ?_⟩
        · show s.log ++ [x] = _
          rw [htake, h1, hx]
        · show rest ++ eff s.pops = _
          rw [hdrop, hrest]
        · intro j hj
          rcases Nat.lt_succ_iff_lt_or_eq.mp hj with hj' | rfl
          · exact h3 j hj'
          · exact hr
        · intro hfalse
          simp at hfalse
      · rw [if_neg hr]
        exact ⟨h1, hq ▸ h2, h3,
          fun _ => Or.inr (Bool.not_eq_true _ ▸ hr)⟩

theorem sweep_iter_preserves (ready : Nat → Bool) (eff : Nat → List String)
    (q0 : List String) (k : Nat) (s : SweepState)
    (h : SweepInv ready eff q0 s) :
    SweepInv ready eff q0 (sweep_iter ready eff k s) := by
  induction k generalizing s with
  | zero => exact h
  | succ k ih => exact ih _ (sweep_step_preserves ready eff q0 s h)

theorem sweep_init_inv (ready : Nat → Bool) (eff : Nat → List String)
    (q0 : List String) : SweepInv ready eff q0 (sweep_init q0) := by
  refine ⟨by simp [sweep_init, effCat], by simp [sweep_init, effCat],
    ?_, ?_⟩
  · intro j hj
    exact absurd hj (Nat.not_lt_zero j)
  · intro hdone
    exact absurd hdone (by simp [sweep_init])

end TCG

namespace TCG

/-- **C8** Every retry sweep removes and reprocesses entries strictly in FIFO
order: after any number of loop iterations on an initial queue `q0`, the
reprocessed log is exactly the first `pops` entries of the enqueue-order
stream (original queue followed by the reprocessing calls' own re-queues),
the live queue is exactly the rest (so `log ++ queue` is the whole stream —
no item skipped, none duplicated for a single enqueue), every pop was
preceded by a ready status answer, and a finished sweep stopped only on an
empty queue or on the first not-ready answer.  A later sweep starts from the
remaining queue, so the same theorem applied to it extends the drain without
skips or duplicates. -/
theorem retry_sweep_fifo (ready : Nat → Bool) (eff : Nat → List String)
    (q0 : List String) (k : Nat) :
    (sweep_iter ready eff k (sweep_init q0)).log =
      (q0 ++ effCat eff (sweep_iter ready eff k (sweep_init q0)).pops).take
        (sweep_iter ready eff k (sweep_init q0)).pops ∧
    (sweep_iter ready eff k (sweep_init q0)).queue =
      (q0 ++ effCat eff (sweep_iter ready eff k (sweep_init q0)).pops).drop
        (sweep_iter ready eff k (sweep_init q0)).pops ∧
    (∀ j, j < (sweep_iter ready eff k (sweep_init q0)).pops →
      ready j = true) ∧
    ((sweep_iter ready eff k (sweep_init q0)).done = true →
      (sweep_iter ready eff k (sweep_init q0)).queue = [] ∨
      ready (sweep_iter ready eff k (sweep_init q0)).pops = false) ∧
    (sweep_iter ready eff k (sweep_init q0)).log ++
        (sweep_iter ready eff k (sweep_init q0)).queue =
      q0 ++ effCat eff (sweep_iter ready eff k (sweep_init q0)).pops := by
  obtain ⟨h1, h2, h3, h4⟩ :=
    sweep_iter_preserves ready eff q0 k (sweep_init q0)
      (sweep_init_inv ready eff q0)
  exact ⟨h1, h2, h3, h4, by rw [h1, h2]; exact List.take_append_drop _ _⟩

theorem retry_sweep_fifo_witness :
    (sweep_iter (fun j => decide (j < 2)) (fun _ => []) 5
        (sweep_init ["a.png", "b.png", "c.png"])).log ++
      (sweep_iter (fun j => decide (j < 2)) (fun _ => []) 5
        (sweep_init ["a.png", "b.png", "c.png"])).queue =
      ["a.png", "b.png", "c.png"] ++
        effCat (fun _ => [])
          (sweep_iter (fun j => decide (j < 2)) (fun _ => []) 5
            (sweep_init ["a.png", "b.png", "c.png"])).pops ∧
    (sweep_iter (fun j => decide (j < 2)) (fun _ => []) 5
        (sweep_init ["a.png", "b.png", "c.png"])).log = ["a.png", "b.png"] ∧
    (sweep_iter (fun j => decide (j < 2)) (fun _ => []) 5
        (sweep_init ["a.png", "b.png", "c.png"])).queue = ["c.png"] ∧
    (sweep_iter (fun j => decide (j < 2)) (fun _ => []) 5
        (sweep_init ["a.png", "b.png", "c.png"])).done = true :=
  ⟨(retry_sweep_fifo (fun j => decide (j < 2)) (fun _ => []) 
      ["a.png", "b.png", "c.png"] 5).2.2.2.2,
   by decide, by decide, by decide⟩

end TCG
